import Mathlib

/-!
Verification of the authorization-context construction and resource-visibility
scoping core of the study-cedar document gateway.

The definitions below are a shallow embedding of the Go source:
* `internal/iputil/iputil.go` — client address resolution and classification;
* `internal/cedar/authorizer.go` — assembly of the Cedar decision request;
* the API handlers (`checkGroupAccess`, `ListDocuments`, `GetDocument`,
  `CreateDocument`) — group-access resolution, visibility scoping and the
  per-operation outcome structure.

External collaborators (the SQL store, the JSON codec, the Cedar evaluation
engine) are modelled as explicit parameters: a snapshot of rows for the
store, `Except`-valued functions for fallible calls, and an opaque decision
function for the engine, exactly at the call boundaries the Go code uses.
-/

namespace StudyCedar

/-! ### Data model (internal/models/models.go and the handlers) -/

/-- A row of the `group_associations` table: the N:N relationship between
document groups and user groups (`models.GroupAssociation`). -/
structure GroupAssociation where
  userGroupID : String
  documentGroupID : String
deriving DecidableEq

/-- A row of the `documents` table (`models.Document`).  `documentGroupID`
is a `sql.NullString`: `none` models NULL (`Valid = false`), `some s`
models a present value `s` (`Valid = true`).  Timestamps are abstracted
to naturals; they never influence authorization. -/
structure Document where
  id : String
  title : String
  content : String
  ownerID : String
  documentGroupID : Option String
  createdAt : Nat
  updatedAt : Nat
deriving DecidableEq

/-- Evaluation of the `SELECT EXISTS(SELECT 1 FROM group_associations WHERE
user_group_id = $1 AND document_group_id = $2)` query against a snapshot of
the association table. -/
def assocExists (assocs : List GroupAssociation) (userGroupID documentGroupID : String) : Bool :=
  assocs.any fun a => a.userGroupID == userGroupID && a.documentGroupID == documentGroupID

/-- The association-lookup collaborator: the handler's `QueryRow(...).Scan`
call, which either fails (`Except.error`) or yields the EXISTS boolean. -/
def AssocLookup : Type := String → String → Except Unit Bool

/-- The lookup backed by a concrete snapshot of `group_associations`
(the query succeeds and reports exact-pair existence). -/
def dbAssocLookup (assocs : List GroupAssociation) : AssocLookup :=
  fun ug dg => Except.ok (assocExists assocs ug dg)

/-- `Handler.checkGroupAccess` from the API handlers: empty user-group or
document-group id denies immediately; a lookup error denies; otherwise the
EXISTS result decides. -/
def checkGroupAccess (lookup : AssocLookup) (userGroupID documentGroupID : String) : Bool :=
  if userGroupID = "" ∨ documentGroupID = "" then
    false
  else
    match lookup userGroupID documentGroupID with
    | Except.error _ => false
    | Except.ok b => b

/-- The per-document group-access computation performed by `GetDocument`,
`UpdateDocument` and `DeleteDocument` on the fetched row: a document with a
NULL group is accessible (`hasGroupAccess = true`), otherwise
`checkGroupAccess` decides. -/
def documentGroupAccess (lookup : AssocLookup) (userGroupID : String)
    (documentGroupID : Option String) : Bool :=
  match documentGroupID with
  | some dg => checkGroupAccess lookup userGroupID dg
  | none => true

/-- Membership semantics of the three `ListDocuments` queries, per role:
admins get the whole table; a principal with a group keeps rows whose
`document_group_id` is NULL or joins an association row with
`user_group_id = $1`; a principal without a group keeps only rows whose
`document_group_id` is NULL.  The claim under study is about result sets,
so the row multiplicities of the LEFT JOIN are quotiented away (under the
table's no-duplicate-pairing invariant each kept row appears once). -/
def listDocumentsQuery (docs : List Document) (assocs : List GroupAssociation)
    (userRole userGroupID : String) : List Document :=
  if userRole = "admin" then
    docs
  else if userGroupID ≠ "" then
    docs.filter fun d =>
      match d.documentGroupID with
      | none => true
      | some g => assocExists assocs userGroupID g
  else
    docs.filter fun d => d.documentGroupID = none

/-- The per-item group-access boolean of the single-document path, applied
to one row of the snapshot (the item-by-item form the bulk filter must
reproduce). -/
def perItemAccess (assocs : List GroupAssociation) (userGroupID : String)
    (d : Document) : Bool :=
  documentGroupAccess (dbAssocLookup assocs) userGroupID d.documentGroupID

/-! ### IP classification result (internal/iputil/iputil.go, `IPInfo`) -/

/-- `iputil.IPInfo`: the resolved address together with its two
classification booleans. -/
structure IPInfo where
  ipAddress : String
  isPrivateIP : Bool
  isJapanIP : Bool
deriving DecidableEq

/-! ### The decision request assembled by the handlers (`cedar.AuthzRequest`) -/

/-- The decision-request value the API handlers assemble and hand to the
authorizer.  Its fields are exactly those instantiated at the handlers'
`cedar.AuthzRequest` composite literals (user identity and role, action
name, resource id and owner, the three network-classification attributes,
and the group-access boolean). -/
structure AuthzRequest where
  userID : String
  userRole : String
  action : String
  resourceID : String
  resourceOwnerID : String
  ipAddress : String
  isPrivateIP : Bool
  isJapanIP : Bool
  hasGroupAccess : Bool
deriving DecidableEq

/-- The request literal built by `ListDocuments` (collection-level listing):
resource is the fixed collection id `"documents"`, owner is left at its zero
value, and `HasGroupAccess` is hard-coded `true`.  The handler reads the
caller's group header but does not consult it here. -/
def listDocumentsRequest (userID userRole userGroupID : String) (ipInfo : IPInfo) : AuthzRequest :=
  { userID := userID
    userRole := userRole
    action := "ListDocuments"
    resourceID := "documents"
    resourceOwnerID := ""
    ipAddress := ipInfo.ipAddress
    isPrivateIP := ipInfo.isPrivateIP
    isJapanIP := ipInfo.isJapanIP
    hasGroupAccess := true }

/-- The request literal built by `CreateDocument`: same collection-level
shape, with `HasGroupAccess` hard-coded `true` (the handler never even reads
the group header). -/
def createDocumentRequest (userID userRole : String) (ipInfo : IPInfo) : AuthzRequest :=
  { userID := userID
    userRole := userRole
    action := "CreateDocument"
    resourceID := "documents"
    resourceOwnerID := ""
    ipAddress := ipInfo.ipAddress
    isPrivateIP := ipInfo.isPrivateIP
    isJapanIP := ipInfo.isJapanIP
    hasGroupAccess := true }

/-- The request literal built by `GetDocument` for a fetched document. -/
def getDocumentRequest (userID userRole documentID resourceOwnerID : String)
    (ipInfo : IPInfo) (hasGroupAccess : Bool) : AuthzRequest :=
  { userID := userID
    userRole := userRole
    action := "GetDocument"
    resourceID := documentID
    resourceOwnerID := resourceOwnerID
    ipAddress := ipInfo.ipAddress
    isPrivateIP := ipInfo.isPrivateIP
    isJapanIP := ipInfo.isJapanIP
    hasGroupAccess := hasGroupAccess }

/-! ### The GetDocument handler (single-document read path) -/

/-- The externally observable outcome of the `GetDocument` handler: the
distinct HTTP responses it can produce.  (`badRequest` is 400 for missing
identity headers, `notFound` is 404, `authzError` is the 500 produced when
the authorizer call itself fails, `forbidden` is 403, `success` is the 200
carrying the document.) -/
inductive HandlerOutcome where
  | badRequest : HandlerOutcome
  | notFound : HandlerOutcome
  | authzError : String → HandlerOutcome
  | forbidden : HandlerOutcome
  | success : Document → HandlerOutcome
deriving DecidableEq

/-- The `WHERE id = $1` single-row fetch against a snapshot of the
`documents` table; `none` is `sql.ErrNoRows`. -/
def findDocument (docs : List Document) (documentID : String) : Option Document :=
  docs.find? fun d => d.id == documentID

/-- `Handler.GetDocument`, step for step: header validation, row fetch
(not-found short-circuits), the per-document group-access computation,
then the authorizer call (`authorize` is the collaborator; it may fail,
in which case the handler responds 500, never success).  The snapshot
fetch itself cannot fail here, so the Go handler's generic database-error
branch has no counterpart. -/
def getDocument (docs : List Document) (lookup : AssocLookup)
    (authorize : AuthzRequest → Except String Bool)
    (userID userRole userGroupID : String) (ipInfo : IPInfo)
    (documentID : String) : HandlerOutcome :=
  if userID = "" ∨ userRole = "" then
    HandlerOutcome.badRequest
  else
    match findDocument docs documentID with
    | none => HandlerOutcome.notFound
    | some doc =>
      match authorize (getDocumentRequest userID userRole documentID doc.ownerID ipInfo
          (documentGroupAccess lookup userGroupID doc.documentGroupID)) with
      | Except.error e => HandlerOutcome.authzError e
      | Except.ok false => HandlerOutcome.forbidden
      | Except.ok true => HandlerOutcome.success doc

/-! ### The Cedar authorization core (internal/cedar/authorizer.go) -/

/-- A Cedar entity reference (`cedar.EntityUID`): an entity type paired
with an id. -/
structure EntityUID where
  type : String
  id : String
deriving DecidableEq

/-- An attribute value in the ad hoc entity JSON the authorizer builds:
either a plain string (the user's `role`) or an `__entity` reference
(the document's `owner`). -/
inductive AttrValue where
  | str : String → AttrValue
  | entityRef : String → String → AttrValue
deriving DecidableEq

/-- One element of the `entitiesJSON` slice assembled by `IsAuthorized`:
a uid, an attribute map, and an (always empty) parents list. -/
structure EntityJSON where
  uid : EntityUID
  attrs : List (String × AttrValue)
  parents : List EntityUID
deriving DecidableEq

/-- The request context record carrying the network classification
(`ip_address`, `is_private_ip`, `is_japan_ip`). -/
structure CedarContext where
  ipAddress : String
  isPrivateIP : Bool
  isJapanIP : Bool
deriving DecidableEq

/-- `cedar.Request`: principal, action, resource and context. -/
structure CedarRequest where
  principal : EntityUID
  action : EntityUID
  resource : EntityUID
  context : CedarContext
deriving DecidableEq

/-- The verdict of the policy-set evaluation (`cedar.Decision`). -/
inductive Decision where
  | allow : Decision
  | deny : Decision
deriving DecidableEq, BEq

/-- The diagnostic returned alongside the decision by
`PolicySet.IsAuthorized`; the Go code discards it.  Only whether it
reports evaluation errors matters here. -/
structure Diagnostic where
  hasErrors : Bool
deriving DecidableEq

/-- The `entitiesJSON` slice built by `IsAuthorized`: always the user
entity carrying its role; the document entity with its owner reference is
appended only when both the resource id and the owner id are non-empty. -/
def buildEntitiesJSON (userID userRole resourceID resourceOwnerID : String) : List EntityJSON :=
  let user : EntityJSON :=
    { uid := { type := "DocumentApp::User", id := userID }
      attrs := [("role", AttrValue.str userRole)]
      parents := [] }
  if resourceID ≠ "" ∧ resourceOwnerID ≠ "" then
    [user,
     { uid := { type := "DocumentApp::Document", id := resourceID }
       attrs := [("owner", AttrValue.entityRef "DocumentApp::User" resourceOwnerID)]
       parents := [] }]
  else
    [user]

/-- The `cedar.Request` value built by `IsAuthorized`. -/
def buildCedarRequest (userID action resourceID ipAddress : String)
    (isPrivateIP isJapanIP : Bool) : CedarRequest :=
  { principal := { type := "DocumentApp::User", id := userID }
    action := { type := "DocumentApp::Action", id := action }
    resource := { type := "DocumentApp::Document", id := resourceID }
    context := { ipAddress := ipAddress, isPrivateIP := isPrivateIP, isJapanIP := isJapanIP } }

/-- `Authorizer.IsAuthorized`, with its three collaborators explicit:
`marshal` (`json.Marshal` of the entity slice, producing bytes of type β),
`unmarshal` (`json.Unmarshal` into a `cedar.EntityMap` of type γ), and
`engine` (`PolicySet.IsAuthorized`, returning a decision and a diagnostic).
A marshal or unmarshal failure returns `(false, some msg)`; otherwise the
diagnostic is discarded and the boolean is `decision == Allow` with a nil
error, exactly as in the source. -/
def isAuthorized {β γ : Type} (marshal : List EntityJSON → Except String β)
    (unmarshal : β → Except String γ)
    (engine : γ → CedarRequest → Decision × Diagnostic)
    (userID userRole action resourceID resourceOwnerID ipAddress : String)
    (isPrivateIP isJapanIP : Bool) : Bool × Option String :=
  let entitiesJSON := buildEntitiesJSON userID userRole resourceID resourceOwnerID
  match marshal entitiesJSON with
  | Except.error e => (false, some ("failed to marshal entities: " ++ e))
  | Except.ok bytes =>
    match unmarshal bytes with
    | Except.error e => (false, some ("failed to unmarshal entities: " ++ e))
    | Except.ok entities =>
      let req := buildCedarRequest userID action resourceID ipAddress isPrivateIP isJapanIP
      let result := engine entities req
      (result.fst == Decision.allow, none)

/-! ### Client address resolution (internal/iputil/iputil.go, `GetClientIP`) -/

/-- Go `unicode.IsSpace`, as used by `strings.TrimSpace`: the White_Space
code points. -/
def isSpaceRune (c : Char) : Bool :=
  let n := c.toNat
  n == 9 || n == 10 || n == 11 || n == 12 || n == 13 || n == 32 ||
  n == 0x85 || n == 0xA0 || n == 0x1680 ||
  (0x2000 ≤ n && n ≤ 0x200A) ||
  n == 0x2028 || n == 0x2029 || n == 0x202F || n == 0x205F || n == 0x3000

/-- `strings.TrimSpace`: drop leading and trailing white space. -/
def trimSpace (s : String) : String :=
  String.mk (((s.data.dropWhile isSpaceRune).reverse.dropWhile isSpaceRune).reverse)

/-- Helper for `strings.Split(s, ",")`: splits a character list at every
comma, keeping empty pieces.  Always returns at least one piece. -/
def splitCommaAux : List Char → List Char → List String
  | [], acc => [String.mk acc.reverse]
  | c :: rest, acc =>
    if c = ',' then String.mk acc.reverse :: splitCommaAux rest []
    else splitCommaAux rest (c :: acc)

/-- `strings.Split(s, ",")`. -/
def splitComma (s : String) : List String :=
  splitCommaAux s.data []

/-- Index of the first occurrence of a character in a list. -/
def charIndexOf (l : List Char) (c : Char) : Option Nat :=
  match l with
  | [] => none
  | x :: rest =>
    if x = c then some 0
    else (charIndexOf rest c).map (· + 1)

/-- Index of the last occurrence of a character in a list (Go's
`last(hostport, ':')`). -/
def charLastIndexOf (l : List Char) (c : Char) : Option Nat :=
  match charIndexOf l.reverse c with
  | none => none
  | some i => some (l.length - 1 - i)

/-- `net.SplitHostPort`: splits `host:port` or `[host]:port`, with Go's
exact error cases (missing port, missing bracket, too many colons, stray
brackets).  Returns the host/port pair on success. -/
def splitHostPort (hostport : String) : Except String (String × String) :=
  let l := hostport.data
  match charLastIndexOf l ':' with
  | none => Except.error "missing port in address"
  | some i =>
    match l with
    | '[' :: _ =>
      match charIndexOf l ']' with
      | none => Except.error "missing ']' in address"
      | some endIdx =>
        if endIdx + 1 = l.length then
          Except.error "missing port in address"
        else if endIdx + 1 = i then
          -- host = hostport[1:endIdx]; the validity scans start after the
          -- opening bracket (j = 1) and after the closing bracket (k = endIdx+1)
          if ((l.drop 1).contains '[') then Except.error "unexpected Go bracket in address"
          else if ((l.drop (endIdx + 1)).contains ']') then Except.error "unexpected Go bracket in address"
          else Except.ok (String.mk ((l.drop 1).take (endIdx - 1)), String.mk (l.drop (i + 1)))
        else if l.get? (endIdx + 1) = some ':' then
          Except.error "too many colons in address"
        else
          Except.error "missing port in address"
    | _ =>
      if ((l.take i).contains ':') then Except.error "too many colons in address"
      else if (l.contains '[') then Except.error "unexpected Go bracket in address"
      else if (l.contains ']') then Except.error "unexpected Go bracket in address"
      else Except.ok (String.mk (l.take i), String.mk (l.drop (i + 1)))

/-- `iputil.GetClientIP` once the X-Forwarded-For header has been handled:
the X-Real-IP header if non-empty, else the remote address with the port
split off when `net.SplitHostPort` succeeds. -/
def getClientIPFallback (xri remoteAddr : String) : String :=
  if xri ≠ "" then trimSpace xri
  else
    match splitHostPort remoteAddr with
    | Except.error _ => remoteAddr
    | Except.ok (host, _) => host

/-- `iputil.GetClientIP` over the request's X-Forwarded-For value, its
X-Real-IP value and its `RemoteAddr`: a non-empty forwarding chain yields
its first comma-separated entry, trimmed (the `len(ips) > 0` guard of the
source falls through when the split is empty, which never happens). -/
def getClientIP (xff xri remoteAddr : String) : String :=
  if xff ≠ "" then
    match splitComma xff with
    | ip :: _ => trimSpace ip
    | [] => getClientIPFallback xri remoteAddr
  else getClientIPFallback xri remoteAddr

/-! ### Address parsing (Go `net.ParseIP`, as used by `ClassifyIP`)

Addresses are represented by their 16-byte form as a natural number below
`2 ^ 128`; a dotted IPv4 literal parses to its IPv4-mapped form
(`::ffff:a.b.c.d`), mirroring what `net.ParseIP` returns. -/

/-- Value of a decimal digit character, if it is one. -/
def digitVal (c : Char) : Option Nat :=
  if '0' ≤ c ∧ c ≤ '9' then some (c.toNat - '0'.toNat) else none

/-- Value of a hexadecimal digit character, if it is one. -/
def hexVal (c : Char) : Option Nat :=
  if '0' ≤ c ∧ c ≤ '9' then some (c.toNat - '0'.toNat)
  else if 'a' ≤ c ∧ c ≤ 'f' then some (c.toNat - 'a'.toNat + 10)
  else if 'A' ≤ c ∧ c ≤ 'F' then some (c.toNat - 'A'.toNat + 10)
  else none

/-- Split a character list at every dot, keeping empty pieces. -/
def splitDotAux : List Char → List Char → List (List Char)
  | [], acc => [acc.reverse]
  | c :: rest, acc =>
    if c = '.' then acc.reverse :: splitDotAux rest []
    else splitDotAux rest (c :: acc)

/-- One dotted-decimal field of an IPv4 literal: non-empty, all digits,
no leading zero, value at most 255 (Go `netip` field rules, which
`net.ParseIP` follows). -/
def parseV4Field (f : List Char) : Option Nat :=
  match f with
  | [] => none
  | c0 :: rest =>
    if c0 = '0' ∧ rest ≠ [] then none
    else
      let rec loop : List Char → Nat → Option Nat
        | [], acc => some acc
        | c :: cs, acc =>
          match digitVal c with
          | none => none
          | some v => loop cs (acc * 10 + v)
      match loop f 0 with
      | none => none
      | some v => if v ≤ 255 then some v else none

/-- Go's IPv4 literal parser: exactly four valid dotted fields.  Returns
the 32-bit address value. -/
def parseIPv4 (s : String) : Option Nat :=
  match (splitDotAux s.data []).mapM parseV4Field with
  | some [a, b, c, d] => some (((a * 256 + b) * 256 + c) * 256 + d)
  | _ => none

/-- The IPv4-mapped 16-byte form `::ffff:a.b.c.d` of a 32-bit value. -/
def v4Mapped (v : Nat) : Nat :=
  0xFFFF * 2 ^ 32 + v

/-- Scan a 16-bit hexadecimal field: consume leading hex digits, fail if
the accumulated value reaches `2 ^ 16` (Go errors there), and return the
value, the number of digits consumed, and the rest. -/
def scanHexField : List Char → Nat → Nat → Option (Nat × Nat × List Char)
  | [], acc, cnt => some (acc, cnt, [])
  | c :: rest, acc, cnt =>
    match hexVal c with
    | none => some (acc, cnt, c :: rest)
    | some v =>
      if acc * 16 + v > 0xFFFF then none
      else scanHexField rest (acc * 16 + v) (cnt + 1)

/-- The expansion and length checks performed after the parsing loop of Go
`netip.parseIPv6`: fewer than 16 bytes require an ellipsis (which expands
to the missing zeros); exactly 16 bytes forbid one. -/
def finishIPv6 (bytes : List Nat) (ellipsis : Option Nat) : Option (List Nat) :=
  if bytes.length < 16 then
    match ellipsis with
    | none => none
    | some e => some (bytes.take e ++ List.replicate (16 - bytes.length) 0 ++ bytes.drop e)
  else
    match ellipsis with
    | some _ => none
    | none => some bytes

/-- The four bytes of a 32-bit value, most significant first. -/
def bytes4 (v : Nat) : List Nat :=
  [v / 2 ^ 24 % 256, v / 2 ^ 16 % 256, v / 2 ^ 8 % 256, v % 256]

/-- The field-by-field parsing loop of Go `netip.parseIPv6`.  `bytes` holds
the bytes produced so far (its length is Go's `i`), `ellipsis` the byte
position of a `::` if one was seen.  Each iteration parses one hex field
(erroring on an empty field), handles a trailing embedded IPv4 literal,
then consumes the following colon, detecting `::` and trailing garbage.
The fuel bounds the at most eight iterations. -/
def parseIPv6Loop : Nat → List Char → List Nat → Option Nat → Option (List Nat)
  | 0, _, _, _ => none
  | fuel + 1, s, bytes, ellipsis =>
    match scanHexField s 0 0 with
    | none => none
    | some (acc, off, rest) =>
      if off = 0 then none
      else
        match rest with
        | '.' :: _ =>
          -- an embedded IPv4 literal must replace the final two fields
          -- (or follow an ellipsis); Go re-parses the whole remaining
          -- string, hex digits included, as dotted decimal
          if ellipsis = none ∧ bytes.length ≠ 12 then none
          else if bytes.length + 4 > 16 then none
          else
            match parseIPv4 (String.mk s) with
            | none => none
            | some v4 => finishIPv6 (bytes ++ bytes4 v4) ellipsis
        | _ =>
          let bytes := bytes ++ [acc / 256, acc % 256]
          match rest with
          | [] => finishIPv6 bytes ellipsis
          | [':'] => none
          | ':' :: ':' :: rest2 =>
            match ellipsis with
            | some _ => none
            | none =>
              match rest2 with
              | [] => finishIPv6 bytes (some bytes.length)
              | _ =>
                if bytes.length < 16 then parseIPv6Loop fuel rest2 bytes (some bytes.length)
                else none
          | ':' :: rest2 =>
            if bytes.length < 16 then parseIPv6Loop fuel rest2 bytes ellipsis
            else none
          | _ => none

/-- Fold a byte list into its big-endian value. -/
def bytesToNat (bytes : List Nat) : Nat :=
  bytes.foldl (fun a b => a * 256 + b) 0

/-- Go's IPv6 literal parser (`netip.parseIPv6`), restricted as
`net.ParseIP` uses it: zoned addresses (a `%` anywhere) are rejected, a
leading `::` is stripped before the loop, and `::` alone is the
unspecified address. -/
def parseIPv6 (s : String) : Option Nat :=
  let l := s.data
  if l.contains '%' then none
  else
    match l with
    | ':' :: ':' :: rest =>
      if rest = [] then some 0
      else (parseIPv6Loop 17 rest [] (some 0)).map bytesToNat
    | _ => (parseIPv6Loop 17 l [] none).map bytesToNat

/-- The first `.` or `:` in a string, whichever comes first — the dispatch
`net.ParseIP` performs to pick an address family. -/
def firstDotOrColon : List Char → Option Char
  | [] => none
  | c :: rest =>
    if c = '.' ∨ c = ':' then some c
    else firstDotOrColon rest

/-- `net.ParseIP`: dotted literals through the IPv4 parser (yielding the
IPv4-mapped form), coloned literals through the IPv6 parser, anything
else is nil (`none`). -/
def parseIP (s : String) : Option Nat :=
  match firstDotOrColon s.data with
  | some '.' => (parseIPv4 s).map v4Mapped
  | some _ => parseIPv6 s
  | none => none

/-! ### Range classification (isPrivateIP, isJapanIP) -/

/-- `IP.To4`: an address in the IPv4-mapped form `::ffff:a.b.c.d` yields
its 32-bit value; any other address has no 4-byte form. -/
def to4 (ip : Nat) : Option Nat :=
  if ip / 2 ^ 32 = 0xFFFF then some (ip % 2 ^ 32) else none

/-- `net.CIDRMask ones bits` as a `bits`-wide value: `ones` one bits
followed by zeros. -/
def cidrMask (ones bits : Nat) : Nat :=
  (2 ^ ones - 1) * 2 ^ (bits - ones)

/-- A `net.IPNet` after the family normalization `Contains` performs:
IPv4 networks (a 32-bit mask) compare in 32-bit space against `To4` of the
queried address, IPv6 networks in 128-bit space; a family mismatch is
never contained. -/
inductive IPBlock where
  | v4 : Nat → Nat → IPBlock
  | v6 : Nat → Nat → IPBlock
deriving DecidableEq

/-- `IPNet.Contains`: mask both the network number and the queried address
and compare, after the family normalization described at `IPBlock`. -/
def ipBlockContains (b : IPBlock) (ip : Nat) : Bool :=
  match b with
  | IPBlock.v4 network ones =>
    match to4 ip with
    | some v => (v &&& cidrMask ones 32) == (network &&& cidrMask ones 32)
    | none => false
  | IPBlock.v6 network ones =>
    match to4 ip with
    | some _ => false
    | none => (ip &&& cidrMask ones 128) == (network &&& cidrMask ones 128)

/-- The `privateIPBlocks` of `iputil.isPrivateIP`: 10.0.0.0/8,
172.16.0.0/12, 192.168.0.0/16, 127.0.0.0/8, ::1/128 and fc00::/7, written
as the parsed network values the source's `net.ParseIP`/`CIDRMask` calls
produce. -/
def privateIPBlocks : List IPBlock :=
  [IPBlock.v4 0x0A000000 8,
   IPBlock.v4 0xAC100000 12,
   IPBlock.v4 0xC0A80000 16,
   IPBlock.v4 0x7F000000 8,
   IPBlock.v6 1 128,
   IPBlock.v6 (0xFC00 * 2 ^ 112) 7]

/-- `iputil.isPrivateIP`: membership in any of the private/loopback
blocks. -/
def isPrivateIP (ip : Nat) : Bool :=
  privateIPBlocks.any fun b => ipBlockContains b ip

/-- Go `dtoi` followed by the `i != len(mask)` check of `net.ParseCIDR`:
the mask text must be entirely decimal digits and non-empty. -/
def dtoiAll (l : List Char) : Option Nat :=
  match l.mapM digitVal with
  | some (d :: ds) => some ((d :: ds).foldl (fun a v => a * 10 + v) 0)
  | _ => none

/-- Split a character list at the first slash, if any. -/
def splitAtSlash (l : List Char) : Option (List Char × List Char) :=
  match charIndexOf l '/' with
  | none => none
  | some i => some (l.take i, l.drop (i + 1))

/-- `net.ParseCIDR`: address before the slash, prefix length after it.
A dotted address (first special character a dot) has bit length 32, a
coloned one 128; the prefix length must not exceed it.  The resulting
network number is the address masked. -/
def parseCIDR (s : String) : Option IPBlock :=
  match splitAtSlash s.data with
  | none => none
  | some (addrChars, maskChars) =>
    let addr := String.mk addrChars
    match dtoiAll maskChars, parseIP addr with
    | some n, some ip =>
      if firstDotOrColon addrChars = some '.' then
        if n ≤ 32 then
          match to4 ip with
          | some v => some (IPBlock.v4 (v &&& cidrMask n 32) n)
          | none => none
        else none
      else
        if n ≤ 128 then some (IPBlock.v6 (ip &&& cidrMask n 128) n)
        else none
    | _, _ => none

/-- The `japanIPRanges` table of `iputil.isJapanIP`, verbatim. -/
def japanIPRanges : List String :=
  ["1.0.16.0/20",
   "1.0.64.0/18",
   "1.1.0.0/16",
   "1.21.0.0/16",
   "1.33.0.0/16",
   "27.80.0.0/12",
   "49.96.0.0/11",
   "60.32.0.0/11",
   "61.192.0.0/12",
   "114.48.0.0/13",
   "126.0.0.0/8",
   "202.232.0.0/13",
   "13.112.0.0/14",
   "13.230.0.0/15",
   "18.176.0.0/13",
   "34.84.0.0/14",
   "35.187.192.0/19",
   "35.189.128.0/17",
   "20.43.64.0/18",
   "20.189.0.0/18",
   "40.74.0.0/16"]

/-- `iputil.isJapanIP`: each range is parsed with `ParseCIDR` (a parse
failure skips the entry, as the source's `continue` does) and the address
is tested for membership. -/
def isJapanIP (ip : Nat) : Bool :=
  japanIPRanges.any fun cidr =>
    match parseCIDR cidr with
    | none => false
    | some b => ipBlockContains b ip

/-- `iputil.ClassifyIP`: an unparsable address keeps the raw string and
classifies as neither private nor domestic; a parsed one is classified by
range membership.  Total by construction — there is no error output. -/
def classifyIP (ipAddr : String) : IPInfo :=
  match parseIP ipAddr with
  | none =>
    { ipAddress := ipAddr, isPrivateIP := false, isJapanIP := false }
  | some ip =>
    { ipAddress := ipAddr, isPrivateIP := isPrivateIP ip, isJapanIP := isJapanIP ip }

/-! ## Theorems for the spec claims -/

/-- **C2** (counterexample).  The claim asserts that the group-access
resolution returns true for every principal group when the resource's
group is absent/empty.  A resource group that is present but the empty
string refutes the "empty" half: the code routes it through
`checkGroupAccess`, whose empty-identifier guard denies. -/
theorem ungrouped_visibility_counterexample :
    documentGroupAccess (dbAssocLookup []) "g1" (some "") = false := by
  decide

/-- **C2** (amended).  For every association lookup and every principal
group (the empty one included), a resource whose group is absent (NULL)
resolves to accessible; a resource whose group is present but equal to
the empty string resolves to denied. -/
theorem ungrouped_visibility (lookup : AssocLookup) (userGroupID : String) :
    documentGroupAccess lookup userGroupID none = true ∧
    documentGroupAccess lookup userGroupID (some "") = false := by
  refine ⟨rfl, ?_⟩
  simp [documentGroupAccess, checkGroupAccess]

/-- **C4.**  If the association lookup returns an error for a pair of
group identifiers, `checkGroupAccess` returns false on that pair: a
lookup failure never grants access. -/
theorem checkGroupAccess_fail_closed (lookup : AssocLookup)
    (userGroupID documentGroupID : String) (e : Unit)
    (h : lookup userGroupID documentGroupID = Except.error e) :
    checkGroupAccess lookup userGroupID documentGroupID = false := by
  unfold checkGroupAccess
  split
  · rfl
  · rw [h]

/-- **C4** (witness): a lookup that always fails denies a concrete
non-empty pair. -/
theorem checkGroupAccess_fail_closed_witness :
    checkGroupAccess (fun _ _ => Except.error ()) "g1" "dg1" = false :=
  checkGroupAccess_fail_closed (fun _ _ => Except.error ()) "g1" "dg1" () rfl

/-- **C6.**  Over any association snapshot: for non-empty principal and
resource groups, `checkGroupAccess` is true exactly when an association
pairs that principal group with that resource group (no transitivity, no
wildcard); and a grouped resource is inaccessible to an ungrouped
(empty-group) principal. -/
theorem checkGroupAccess_exact_pair (assocs : List GroupAssociation)
    (principalGroup resourceGroup : String) :
    (principalGroup ≠ "" → resourceGroup ≠ "" →
      (checkGroupAccess (dbAssocLookup assocs) principalGroup resourceGroup = true ↔
        assocExists assocs principalGroup resourceGroup = true)) ∧
    documentGroupAccess (dbAssocLookup assocs) "" (some resourceGroup) = false := by
  constructor
  · intro hp hr
    simp [checkGroupAccess, dbAssocLookup, hp, hr]
  · simp [documentGroupAccess, checkGroupAccess]

/-- **C6** (witness): with the single association (g1, dg1), access from
principal group g1 to resource group dg1 is granted, and the ungrouped
principal is denied on the grouped resource. -/
theorem checkGroupAccess_exact_pair_witness :
    checkGroupAccess (dbAssocLookup [⟨"g1", "dg1"⟩]) "g1" "dg1" = true ∧
    documentGroupAccess (dbAssocLookup [⟨"g1", "dg1"⟩]) "" (some "dg1") = false :=
  ⟨((checkGroupAccess_exact_pair [⟨"g1", "dg1"⟩] "g1" "dg1").1
      (by decide) (by decide)).mpr (by decide),
   (checkGroupAccess_exact_pair [⟨"g1", "dg1"⟩] "g1" "dg1").2⟩

/-- **C7.**  The decision requests assembled by the collection-level
handlers `ListDocuments` and `CreateDocument` always carry the access
boolean fixed to true, and the listing request does not depend on the
principal's group at all. -/
theorem collection_requests_fix_group_access
    (userID userRole userGroupID otherGroupID : String) (ipInfo : IPInfo) :
    (listDocumentsRequest userID userRole userGroupID ipInfo).hasGroupAccess = true ∧
    (createDocumentRequest userID userRole ipInfo).hasGroupAccess = true ∧
    listDocumentsRequest userID userRole userGroupID ipInfo =
      listDocumentsRequest userID userRole otherGroupID ipInfo :=
  ⟨rfl, rfl, rfl⟩

/-- **C9.**  In the single-document path with valid identity headers, a
missing resource yields the `notFound` outcome, a fetched resource whose
authorization evaluates to a denial yields the `forbidden` outcome, and
the two outcomes are distinct — they are never conflated. -/
theorem getDocument_notFound_forbidden_distinct (docs : List Document)
    (lookup : AssocLookup) (authorize : AuthzRequest → Except String Bool)
    (userID userRole userGroupID : String) (ipInfo : IPInfo) (documentID : String)
    (hu : userID ≠ "") (hr : userRole ≠ "") :
    (findDocument docs documentID = none →
      getDocument docs lookup authorize userID userRole userGroupID ipInfo documentID =
        HandlerOutcome.notFound) ∧
    (∀ doc, findDocument docs documentID = some doc →
      authorize (getDocumentRequest userID userRole documentID doc.ownerID ipInfo
        (documentGroupAccess lookup userGroupID doc.documentGroupID)) = Except.ok false →
      getDocument docs lookup authorize userID userRole userGroupID ipInfo documentID =
        HandlerOutcome.forbidden) ∧
    HandlerOutcome.notFound ≠ HandlerOutcome.forbidden := by
  have hcond : ¬(userID = "" ∨ userRole = "") := by
    rintro (h | h)
    · exact hu h
    · exact hr h
  refine ⟨?_, ?_, by simp⟩
  · intro hfind
    unfold getDocument
    rw [if_neg hcond, hfind]
  · intro doc hfind hauth
    unfold getDocument
    rw [if_neg hcond, hfind]
    simp only [hauth]

/-- **C9** (witness): against an empty store the read of doc-9 is
`notFound`; against a store holding an ungrouped doc-1, a denying
authorizer produces `forbidden`. -/
theorem getDocument_notFound_forbidden_distinct_witness :
    getDocument [] (dbAssocLookup []) (fun _ => Except.ok false)
      "user-1" "viewer" "" ⟨"127.0.0.1", true, false⟩ "doc-9" =
      HandlerOutcome.notFound ∧
    getDocument [⟨"doc-1", "t", "c", "user-2", none, 0, 0⟩] (dbAssocLookup [])
      (fun _ => Except.ok false)
      "user-1" "viewer" "" ⟨"127.0.0.1", true, false⟩ "doc-1" =
      HandlerOutcome.forbidden :=
  ⟨(getDocument_notFound_forbidden_distinct [] (dbAssocLookup [])
      (fun _ => Except.ok false) "user-1" "viewer" "" ⟨"127.0.0.1", true, false⟩
      "doc-9" (by decide) (by decide)).1 rfl,
   (getDocument_notFound_forbidden_distinct [⟨"doc-1", "t", "c", "user-2", none, 0, 0⟩]
      (dbAssocLookup []) (fun _ => Except.ok false) "user-1" "viewer" ""
      ⟨"127.0.0.1", true, false⟩ "doc-1" (by decide) (by decide)).2.1
      ⟨"doc-1", "t", "c", "user-2", none, 0, 0⟩ (by decide) rfl⟩

/-- **C10** (counterexample).  The claim quantifies over any two requests
for the same identifier against the same store that differ in principal
identity: a request whose user id is the empty string is rejected by the
header check before the fetch, so it does not produce `notFound` even
though the other request does — the claimed iff fails. -/
theorem getDocument_existence_oracle_counterexample :
    getDocument [] (dbAssocLookup []) (fun _ => Except.ok false)
      "user-1" "viewer" "" ⟨"127.0.0.1", true, false⟩ "doc-1" =
      HandlerOutcome.notFound ∧
    getDocument [] (dbAssocLookup []) (fun _ => Except.ok false)
      "" "viewer" "" ⟨"127.0.0.1", true, false⟩ "doc-1" ≠
      HandlerOutcome.notFound := by
  exact ⟨rfl, by decide⟩

/-- **C10** (amended).  For requests that pass the header validation
(non-empty identity and role), whether `GetDocument` produces the
`notFound` outcome depends only on the store snapshot and the requested
identifier: any two such requests — differing in identity, role, group,
lookup state or network classification — agree on it, so a denied
principal can still observe whether a document exists. -/
theorem getDocument_notFound_principal_independent (docs : List Document)
    (lookup lookup2 : AssocLookup) (authorize : AuthzRequest → Except String Bool)
    (uid1 role1 group1 uid2 role2 group2 : String) (ip1 ip2 : IPInfo)
    (documentID : String)
    (h1 : uid1 ≠ "") (h2 : role1 ≠ "") (h3 : uid2 ≠ "") (h4 : role2 ≠ "") :
    (getDocument docs lookup authorize uid1 role1 group1 ip1 documentID =
        HandlerOutcome.notFound ↔
      getDocument docs lookup2 authorize uid2 role2 group2 ip2 documentID =
        HandlerOutcome.notFound) := by
  have key : ∀ (lk : AssocLookup) (u r g : String) (ip : IPInfo), u ≠ "" → r ≠ "" →
      (getDocument docs lk authorize u r g ip documentID = HandlerOutcome.notFound ↔
        findDocument docs documentID = none) := by
    intro lk u r g ip hu hr
    unfold getDocument
    rw [if_neg (by rintro (h | h); exacts [hu h, hr h])]
    cases hf : findDocument docs documentID with
    | none => simp
    | some doc =>
      simp only [Option.some_ne_none, iff_false]
      cases ha : authorize (getDocumentRequest u r documentID doc.ownerID ip
          (documentGroupAccess lk g doc.documentGroupID)) with
      | error e => simp
      | ok b => cases b <;> simp
  rw [key lookup uid1 role1 group1 ip1 h1 h2, key lookup2 uid2 role2 group2 ip2 h3 h4]

/-- **C10** (witness): two header-valid requests with different identity,
role, group and network origin agree on the `notFound` outcome for the
same store and identifier. -/
theorem getDocument_notFound_principal_independent_witness :
    (getDocument [] (dbAssocLookup []) (fun _ => Except.ok false)
        "user-1" "viewer" "g1" ⟨"127.0.0.1", true, false⟩ "doc-1" =
        HandlerOutcome.notFound ↔
      getDocument [] (dbAssocLookup []) (fun _ => Except.ok false)
        "user-2" "admin" "" ⟨"8.8.8.8", false, false⟩ "doc-1" =
        HandlerOutcome.notFound) :=
  getDocument_notFound_principal_independent [] (dbAssocLookup []) (dbAssocLookup [])
    (fun _ => Except.ok false) "user-1" "viewer" "g1" "user-2" "admin" ""
    ⟨"127.0.0.1", true, false⟩ ⟨"8.8.8.8", false, false⟩ "doc-1"
    (by decide) (by decide) (by decide) (by decide)

/-- **C3.**  `IsAuthorized` never converts a failure into an Allow: a
marshal failure, an unmarshal failure, or an engine evaluation reporting
errors (whose decision, under Cedar's deny-by-default evaluation, is
Deny) all make the returned boolean false. -/
theorem isAuthorized_fail_closed {β γ : Type}
    (marshal : List EntityJSON → Except String β) (unmarshal : β → Except String γ)
    (engine : γ → CedarRequest → Decision × Diagnostic)
    (userID userRole action resourceID resourceOwnerID ipAddress : String)
    (privateFlag japanFlag : Bool)
    (hfail :
      (∃ e, marshal (buildEntitiesJSON userID userRole resourceID resourceOwnerID) =
        Except.error e) ∨
      (∃ bytes e,
        marshal (buildEntitiesJSON userID userRole resourceID resourceOwnerID) =
          Except.ok bytes ∧
        unmarshal bytes = Except.error e) ∨
      (∃ bytes entities,
        marshal (buildEntitiesJSON userID userRole resourceID resourceOwnerID) =
          Except.ok bytes ∧
        unmarshal bytes = Except.ok entities ∧
        (engine entities (buildCedarRequest userID action resourceID ipAddress
          privateFlag japanFlag)).snd.hasErrors = true ∧
        (engine entities (buildCedarRequest userID action resourceID ipAddress
          privateFlag japanFlag)).fst = Decision.deny)) :
    (isAuthorized marshal unmarshal engine userID userRole action resourceID
      resourceOwnerID ipAddress privateFlag japanFlag).fst = false := by
  unfold isAuthorized
  rcases hfail with ⟨e, he⟩ | ⟨bs, e, hm, hu⟩ | ⟨bs, ent, hm, hu, _herr, hdeny⟩
  · simp [he]
  · simp [hm, hu]
  · simp [hm, hu, hdeny]
    decide

/-- **C3** (witness): a failing marshal step yields a false (Deny)
boolean even when the engine would have allowed. -/
theorem isAuthorized_fail_closed_witness :
    (isAuthorized (fun _ => Except.error "marshal failure")
      (fun b : String => Except.ok b)
      (fun (_ : String) (_ : CedarRequest) => (Decision.allow, ⟨false⟩))
      "user-1" "viewer" "GetDocument" "doc-1" "user-2" "8.8.8.8" false false).fst =
      false :=
  isAuthorized_fail_closed (fun _ => Except.error "marshal failure")
    (fun b : String => Except.ok b)
    (fun (_ : String) (_ : CedarRequest) => (Decision.allow, ⟨false⟩))
    "user-1" "viewer" "GetDocument" "doc-1" "user-2" "8.8.8.8" false false
    (Or.inl ⟨"marshal failure", rfl⟩)

/-- **C1** (counterexample).  The claimed set-equality between the bulk
listing filter and the per-item computation fails on a snapshot holding a
document whose group id is the present-but-empty string together with an
association on that empty group: the LEFT JOIN of the listing query keeps
the document, while the per-item path routes the empty id through
`checkGroupAccess`, which denies. -/
theorem listDocuments_filter_counterexample :
    (⟨"doc-1", "t", "c", "user-1", some "", 0, 0⟩ : Document) ∈
      listDocumentsQuery [⟨"doc-1", "t", "c", "user-1", some "", 0, 0⟩]
        [⟨"g1", ""⟩] "viewer" "g1" ∧
    perItemAccess [⟨"g1", ""⟩] "g1" ⟨"doc-1", "t", "c", "user-1", some "", 0, 0⟩ =
      false := by
  exact ⟨by decide, by decide⟩

/-- **C1** (amended).  For every non-admin principal and every snapshot in
which no document carries the present-but-empty group id, the bulk
listing filter is set-equal to the per-item group-access computation
applied over the whole collection. -/
theorem listDocuments_filter_matches_per_item (docs : List Document)
    (assocs : List GroupAssociation) (userRole userGroupID : String)
    (hrole : userRole ≠ "admin")
    (hwf : ∀ d ∈ docs, d.documentGroupID ≠ some "") :
    ∀ d : Document,
      d ∈ listDocumentsQuery docs assocs userRole userGroupID ↔
        d ∈ docs ∧ perItemAccess assocs userGroupID d = true := by
  intro d
  unfold listDocumentsQuery
  rw [if_neg hrole]
  by_cases hg : userGroupID = ""
  · rw [if_neg (by simp [hg]), List.mem_filter]
    constructor
    · rintro ⟨hd, hp⟩
      refine ⟨hd, ?_⟩
      cases hdg : d.documentGroupID with
      | none => simp [perItemAccess, documentGroupAccess, hdg]
      | some g => rw [hdg] at hp; simp at hp
    · rintro ⟨hd, hp⟩
      refine ⟨hd, ?_⟩
      cases hdg : d.documentGroupID with
      | none => simp [hdg]
      | some g =>
        simp [perItemAccess, documentGroupAccess, hdg, hg, checkGroupAccess] at hp
  · rw [if_pos hg, List.mem_filter]
    constructor
    · rintro ⟨hd, hp⟩
      refine ⟨hd, ?_⟩
      cases hdg : d.documentGroupID with
      | none => simp [perItemAccess, documentGroupAccess, hdg]
      | some g =>
        rw [hdg] at hp
        have hgne : g ≠ "" := fun hge => hwf d hd (by rw [hdg, hge])
        simp [perItemAccess, documentGroupAccess, hdg, checkGroupAccess,
          dbAssocLookup, hg, hgne]
        exact hp
    · rintro ⟨hd, hp⟩
      refine ⟨hd, ?_⟩
      cases hdg : d.documentGroupID with
      | none => simp [hdg]
      | some g =>
        have hgne : g ≠ "" := fun hge => hwf d hd (by rw [hdg, hge])
        simp [perItemAccess, documentGroupAccess, hdg, checkGroupAccess,
          dbAssocLookup, hg, hgne] at hp
        exact hp

/-- **C1** (witness): a well-formed three-document snapshot — ungrouped,
associated group, unassociated group — where the listing filter for a
grouped viewer keeps exactly the rows the per-item computation accepts. -/
theorem listDocuments_filter_matches_per_item_witness :
    ((⟨"doc-1", "t1", "c1", "user-1", none, 0, 0⟩ : Document) ∈
        listDocumentsQuery
          [⟨"doc-1", "t1", "c1", "user-1", none, 0, 0⟩,
           ⟨"doc-2", "t2", "c2", "user-2", some "dg1", 0, 0⟩,
           ⟨"doc-3", "t3", "c3", "user-2", some "dg2", 0, 0⟩]
          [⟨"g1", "dg1"⟩] "viewer" "g1" ↔
      (⟨"doc-1", "t1", "c1", "user-1", none, 0, 0⟩ : Document) ∈
          [⟨"doc-1", "t1", "c1", "user-1", none, 0, 0⟩,
           ⟨"doc-2", "t2", "c2", "user-2", some "dg1", 0, 0⟩,
           ⟨"doc-3", "t3", "c3", "user-2", some "dg2", 0, 0⟩] ∧
        perItemAccess [⟨"g1", "dg1"⟩] "g1"
          ⟨"doc-1", "t1", "c1", "user-1", none, 0, 0⟩ = true) :=
  listDocuments_filter_matches_per_item
    [⟨"doc-1", "t1", "c1", "user-1", none, 0, 0⟩,
     ⟨"doc-2", "t2", "c2", "user-2", some "dg1", 0, 0⟩,
     ⟨"doc-3", "t3", "c3", "user-2", some "dg2", 0, 0⟩]
    [⟨"g1", "dg1"⟩] "viewer" "g1" (by decide) (by decide)
    ⟨"doc-1", "t1", "c1", "user-1", none, 0, 0⟩

/-- **C5.**  `ClassifyIP` is total and its result always echoes the input
address; when the input does not parse as an IP address, both
classification booleans are false (never an error — totality is by
construction, the function has no failure output). -/
theorem classifyIP_total_default (s : String) :
    (classifyIP s).ipAddress = s ∧
    (parseIP s = none →
      (classifyIP s).isPrivateIP = false ∧ (classifyIP s).isJapanIP = false) := by
  constructor
  · unfold classifyIP
    cases parseIP s <;> rfl
  · intro h
    unfold classifyIP
    rw [h]
    exact ⟨rfl, rfl⟩

/-- **C5** (witness): the unparsable string "not-an-ip" is echoed back and
classified as neither private nor domestic. -/
theorem classifyIP_total_default_witness :
    (classifyIP "not-an-ip").ipAddress = "not-an-ip" ∧
    ((classifyIP "not-an-ip").isPrivateIP = false ∧
      (classifyIP "not-an-ip").isJapanIP = false) :=
  ⟨(classifyIP_total_default "not-an-ip").1,
   (classifyIP_total_default "not-an-ip").2 (by decide)⟩

/-- `strings.Split` never yields an empty slice, so the first entry of a
non-empty forwarding header always exists. -/
theorem splitCommaAux_ne_nil (l acc : List Char) : splitCommaAux l acc ≠ [] := by
  induction l generalizing acc with
  | nil => simp [splitCommaAux]
  | cons c rest ih =>
    unfold splitCommaAux
    split
    · simp
    · exact ih _

/-- **C8.**  `GetClientIP` resolves the client address with the exact
precedence of the source: a non-empty X-Forwarded-For yields the trimmed
first comma-separated entry; otherwise a non-empty X-Real-IP yields its
trimmed value; otherwise the transport peer address is used, with the
port stripped exactly when `net.SplitHostPort` succeeds on it. -/
theorem getClientIP_precedence (xff xri remoteAddr : String) :
    (xff ≠ "" →
      getClientIP xff xri remoteAddr = trimSpace ((splitComma xff).headD "")) ∧
    (xff = "" → xri ≠ "" → getClientIP xff xri remoteAddr = trimSpace xri) ∧
    (xff = "" → xri = "" →
      (∀ host port, splitHostPort remoteAddr = Except.ok (host, port) →
        getClientIP xff xri remoteAddr = host) ∧
      (∀ e, splitHostPort remoteAddr = Except.error e →
        getClientIP xff xri remoteAddr = remoteAddr)) := by
  refine ⟨?_, ?_, ?_⟩
  · intro h
    unfold getClientIP
    rw [if_pos h]
    cases hs : splitComma xff with
    | nil => exact absurd hs (splitCommaAux_ne_nil _ _)
    | cons a t => simp
  · intro h1 h2
    unfold getClientIP getClientIPFallback
    rw [if_neg (by simp [h1]), if_pos h2]
  · intro h1 h2
    constructor
    · intro host port hsp
      unfold getClientIP getClientIPFallback
      rw [if_neg (by simp [h1]), if_neg (by simp [h2])]
      simp [hsp]
    · intro e hsp
      unfold getClientIP getClientIPFallback
      rw [if_neg (by simp [h1]), if_neg (by simp [h2])]
      simp [hsp]

/-- **C8** (witness): the three precedence levels on concrete requests —
a forwarding chain wins, then the single-hop header (trimmed), then the
peer address with and without a port. -/
theorem getClientIP_precedence_witness :
    getClientIP "1.0.16.1, 10.0.0.1" "x" "y" =
      trimSpace ((splitComma "1.0.16.1, 10.0.0.1").headD "") ∧
    getClientIP "" " 8.8.8.8 " "y" = trimSpace " 8.8.8.8 " ∧
    getClientIP "" "" "127.0.0.1:8080" = "127.0.0.1" ∧
    getClientIP "" "" "::1" = "::1" :=
  ⟨(getClientIP_precedence "1.0.16.1, 10.0.0.1" "x" "y").1 (by decide),
   (getClientIP_precedence "" " 8.8.8.8 " "y").2.1 rfl (by decide),
   ((getClientIP_precedence "" "" "127.0.0.1:8080").2.2 rfl rfl).1
     "127.0.0.1" "8080" rfl,
   ((getClientIP_precedence "" "" "::1").2.2 rfl rfl).2
     "too many colons in address" rfl⟩

end StudyCedar
